import Mathlib

/-
Shallow embedding of the WiFi Dead Zone Mapper (wifi_mapper.py, wifi_visualizer.py).

Conventions of the embedding:
  * `signal_dbm` is a Python int, modelled as `ℤ`.
  * coordinates are Python floats entered by the user; the embedding models them as `ℚ`.
  * Python list comprehensions `[p for p in data if C]` become `List.filter`.
  * Python's stable `sorted(..., reverse=True)` becomes the insertion sort `sortDesc`.
-/

/-- One measurement record (`data_point` in `wifi_mapper.py:149`): capture time,
signal strength in dBm, user-entered coordinates, optional room label. -/
structure Sample where
  timestamp : String
  signal_dbm : ℤ
  x : ℚ
  y : ℚ
  room : Option String
  deriving DecidableEq, Repr

/-- The five coverage bands printed by the visualization phase
(`wifi_visualizer.py:203-207`). -/
inductive Band where
  | excellent
  | good
  | fair
  | poor
  | veryPoor
  deriving DecidableEq, Repr

/-- The five-band classifier of the visualization phase: first matching interval of
the breakdown at `wifi_visualizer.py:203-207` (Excellent `s ≥ -50`, Good
`-60 ≤ s < -50`, Fair `-70 ≤ s < -60`, Poor `-80 ≤ s < -70`, Very Poor `s < -80`). -/
def band (s : ℤ) : Band :=
  if -50 ≤ s then .excellent
  else if -60 ≤ s then .good
  else if -70 ≤ s then .fair
  else if -80 ≤ s then .poor
  else .veryPoor

/-- The label string the visualization phase prints for each band
(`wifi_visualizer.py:203-207`). -/
def bandLabel : Band → String
  | .excellent => "Excellent"
  | .good => "Good"
  | .fair => "Fair"
  | .poor => "Poor"
  | .veryPoor => "Very Poor"

/-- The four-way quality label printed by the collection phase after logging a point
(`wifi_mapper.py:160-167`): `if signal >= -50: "Excellent" elif signal >= -60:
"Good" elif signal >= -70: "Fair" else: "Poor"`. -/
def collectQuality (signal : ℤ) : String :=
  if -50 ≤ signal then "Excellent"
  else if -60 ≤ signal then "Good"
  else if -70 ≤ signal then "Fair"
  else "Poor"

/-- Stable insertion of a sample into a list sorted descending by `signal_dbm`:
the new sample goes before the first element whose signal is ≤ its own, so among
equal signals an inserted (earlier-in-input) sample stays in front. -/
def insertDesc (s : Sample) : List Sample → List Sample
  | [] => [s]
  | t :: ts => if t.signal_dbm ≤ s.signal_dbm then s :: t :: ts else t :: insertDesc s ts

/-- Stable sort descending by `signal_dbm`, modelling Python's stable
`sorted(good_zones, key=lambda x: x['signal_dbm'], reverse=True)`
(`wifi_visualizer.py:221`). -/
def sortDesc : List Sample → List Sample
  | [] => []
  | s :: ss => insertDesc s (sortDesc ss)

/-- Everything `analyze_dead_zones` computes from the data. -/
structure Analysis where
  dead : List Sample
  good : List Sample
  best : List Sample
  countExcellent : ℕ
  countGood : ℕ
  countFair : ℕ
  countPoor : ℕ
  countVeryPoor : ℕ
  deriving DecidableEq, Repr

/-- `analyze_dead_zones(data, threshold)` (`wifi_visualizer.py:186-227`):
dead zones (`signal_dbm < threshold`, line 199), good zones (`signal_dbm >= -60`,
line 200), the five band counts over all samples (lines 203-207), and the
best-coverage report (good zones stably sorted descending, top 3, line 221). -/
def analyze_dead_zones (data : List Sample) (threshold : ℤ) : Analysis :=
  { dead := data.filter (fun p => decide (p.signal_dbm < threshold))
    good := data.filter (fun p => decide (-60 ≤ p.signal_dbm))
    best := (sortDesc (data.filter (fun p => decide (-60 ≤ p.signal_dbm)))).take 3
    countExcellent := data.countP (fun p => decide (-50 ≤ p.signal_dbm))
    countGood := data.countP (fun p => decide (-60 ≤ p.signal_dbm ∧ p.signal_dbm < -50))
    countFair := data.countP (fun p => decide (-70 ≤ p.signal_dbm ∧ p.signal_dbm < -60))
    countPoor := data.countP (fun p => decide (-80 ≤ p.signal_dbm ∧ p.signal_dbm < -70))
    countVeryPoor := data.countP (fun p => decide (p.signal_dbm < -80)) }

/-- C1: the classifier assigns every integer signal to exactly one of the five
bands — the band predicates of `wifi_visualizer.py:203-207` partition ℤ at the
stated thresholds with no gap and no overlap — and consequently, for every sample
list and threshold, the five per-band counts sum to the number of samples. -/
theorem band_partition_and_counts_sum :
    (∀ s : ℤ,
      (band s = Band.excellent ↔ -50 ≤ s) ∧
      (band s = Band.good ↔ -60 ≤ s ∧ s < -50) ∧
      (band s = Band.fair ↔ -70 ≤ s ∧ s < -60) ∧
      (band s = Band.poor ↔ -80 ≤ s ∧ s < -70) ∧
      (band s = Band.veryPoor ↔ s < -80)) ∧
    (∀ (data : List Sample) (t : ℤ),
      (analyze_dead_zones data t).countExcellent + (analyze_dead_zones data t).countGood +
        (analyze_dead_zones data t).countFair + (analyze_dead_zones data t).countPoor +
        (analyze_dead_zones data t).countVeryPoor = data.length) := by
  constructor
  · intro s
    simp only [band]
    split_ifs <;> simp <;> omega
  · intro data t
    induction data with
    | nil => rfl
    | cons p ps ih =>
      simp only [analyze_dead_zones, List.countP_cons, List.length_cons,
        decide_eq_true_eq] at ih ⊢
      split_ifs <;> omega

/-- C6: the dead-zone set is exactly the samples below the threshold, the good-zone
set is exactly the samples at or above -60 dBm and does not depend on the
threshold, and both are sublists (hence subsets) of the input
(`wifi_visualizer.py:199-200`). -/
theorem dead_good_zone_characterization :
    ∀ (data : List Sample) (t t' : ℤ),
      (∀ s : Sample, s ∈ (analyze_dead_zones data t).dead ↔ s ∈ data ∧ s.signal_dbm < t) ∧
      (∀ s : Sample, s ∈ (analyze_dead_zones data t).good ↔ s ∈ data ∧ -60 ≤ s.signal_dbm) ∧
      (analyze_dead_zones data t).good = (analyze_dead_zones data t').good ∧
      (analyze_dead_zones data t).dead.Sublist data ∧
      (analyze_dead_zones data t).good.Sublist data := by
  intro data t t'
  refine ⟨?_, ?_, rfl, List.filter_sublist data, List.filter_sublist data⟩
  · intro s
    simp [analyze_dead_zones, List.mem_filter]
  · intro s
    simp [analyze_dead_zones, List.mem_filter]

/-- C2 counterexample: with the single sample of signal -70, thresholds t = -60 and
t' = -80 < t, the sample is a dead zone at t but not at t', so the dead-zone set at
the lower threshold is not a superset of the one at the higher threshold: lowering
the threshold does shrink the dead-zone set. -/
theorem dead_zone_lowering_superset_false :
    ¬ (∀ (data : List Sample) (t t' : ℤ), t' < t →
        ∀ s : Sample, s ∈ (analyze_dead_zones data t).dead →
          s ∈ (analyze_dead_zones data t').dead) := by
  intro h
  have hmem := h [⟨"", -70, 0, 0, none⟩] (-60) (-80) (by omega)
    ⟨"", -70, 0, 0, none⟩ (by decide)
  exact absurd hmem (by decide)

/-- C2 (amended): dead-zone membership is monotone in the threshold the other way
round — for t' ≤ t the dead-zone set at t' is a sublist of the one at t, i.e.
lowering the threshold never grows (and raising it never shrinks) the dead-zone
set; the good-zone set does not depend on the threshold at all. -/
theorem dead_zone_threshold_monotone :
    ∀ (data : List Sample) (t t' : ℤ), t' ≤ t →
      ((analyze_dead_zones data t').dead).Sublist ((analyze_dead_zones data t).dead) ∧
      (analyze_dead_zones data t').good = (analyze_dead_zones data t).good := by
  intro data t t' h
  refine ⟨?_, rfl⟩
  simp only [analyze_dead_zones]
  exact List.monotone_filter_right data fun a ha => by
    simp only [decide_eq_true_eq] at ha ⊢
    omega

/-- Witness for the amended C2 at the concrete sample list of the counterexample. -/
theorem dead_zone_threshold_monotone_witness :
    ((analyze_dead_zones [⟨"", -70, 0, 0, none⟩] (-80)).dead).Sublist
      ((analyze_dead_zones [⟨"", -70, 0, 0, none⟩] (-60)).dead) ∧
    (analyze_dead_zones [⟨"", -70, 0, 0, none⟩] (-80)).good =
      (analyze_dead_zones [⟨"", -70, 0, 0, none⟩] (-60)).good :=
  dead_zone_threshold_monotone [⟨"", -70, 0, 0, none⟩] (-60) (-80) (by omega)

/-- C10: the collection-phase label (`wifi_mapper.py:160-167`, four labels) differs
from the five-band classifier exactly below -80 dBm: there the collection phase
prints "Poor" while the classifier says Very Poor; at or above -80 they agree. -/
theorem collect_label_vs_classifier :
    ∀ s : ℤ,
      (s < -80 → collectQuality s = "Poor" ∧ band s = Band.veryPoor ∧
        collectQuality s ≠ bandLabel (band s)) ∧
      (-80 ≤ s → collectQuality s = bandLabel (band s)) := by
  intro s
  simp only [collectQuality, band]
  split_ifs <;> refine ⟨fun hlt => ?_, fun hge => ?_⟩ <;>
    first
      | (exfalso; omega)
      | rfl
      | exact ⟨rfl, rfl, by decide⟩

/-- Witness for C10 at s = -81 (disagreement) and s = -75 (agreement). -/
theorem collect_label_vs_classifier_witness :
    (collectQuality (-81) = "Poor" ∧ band (-81) = Band.veryPoor ∧
      collectQuality (-81) ≠ bandLabel (band (-81))) ∧
    collectQuality (-75) = bandLabel (band (-75)) :=
  ⟨(collect_label_vs_classifier (-81)).1 (by decide),
   (collect_label_vs_classifier (-75)).2 (by decide)⟩

/-- Python's `int()` conversion from float to int truncates toward zero. -/
def truncToInt (q : ℚ) : ℤ := if 0 ≤ q then ⌊q⌋ else ⌈q⌉

/-- Link-quality fallback of the Linux probe branch (`wifi_mapper.py:34-40`):
`signal_dbm = -100 + (quality / max_quality) * 70; return int(signal_dbm)`. -/
def linkQualityToDbm (quality maxQuality : ℤ) : ℤ :=
  truncToInt (-100 + ((quality : ℚ) / (maxQuality : ℚ)) * 70)

/-- Percentage branch of the Windows probe (`wifi_mapper.py:70-75`):
`signal_dbm = -100 + (percentage / 100) * 70; return int(signal_dbm)`. -/
def percentToDbm (percentage : ℤ) : ℤ :=
  truncToInt (-100 + ((percentage : ℚ) / 100) * 70)

/-- C8: the percentage-only probe reading is the fixed linear map
`-100 + (pct/100)*70` truncated to an integer; link quality 70/100 converts to
exactly -51 dBm, which the classifier puts in the Good band. -/
theorem link_quality_conversion :
    (∀ q m : ℤ, linkQualityToDbm q m = truncToInt (-100 + ((q : ℚ) / (m : ℚ)) * 70)) ∧
    linkQualityToDbm 70 100 = -51 ∧ percentToDbm 70 = -51 ∧ band (-51) = Band.good := by
  refine ⟨fun q m => rfl, ?_, ?_, by decide⟩ <;>
  · norm_num [linkQualityToDbm, percentToDbm, truncToInt]
    rw [show (-51 : ℚ) = ((-51 : ℤ) : ℚ) by norm_num, Int.ceil_intCast]

/-- Membership in `insertDesc`: inserting adds exactly the new sample. -/
theorem mem_insertDesc (s x : Sample) (l : List Sample) :
    x ∈ insertDesc s l ↔ x = s ∨ x ∈ l := by
  induction l with
  | nil => simp [insertDesc]
  | cons t ts ih =>
    simp only [insertDesc]
    split_ifs with h
    · simp [List.mem_cons]
    · simp only [List.mem_cons, ih]
      tauto

/-- `insertDesc` preserves descending order by `signal_dbm`. -/
theorem pairwise_insertDesc (s : Sample) (l : List Sample)
    (h : List.Pairwise (fun a b => b.signal_dbm ≤ a.signal_dbm) l) :
    List.Pairwise (fun a b => b.signal_dbm ≤ a.signal_dbm) (insertDesc s l) := by
  induction l with
  | nil => simp [insertDesc]
  | cons t ts ih =>
    rw [List.pairwise_cons] at h
    obtain ⟨ht, hts⟩ := h
    simp only [insertDesc]
    split_ifs with hle
    · refine List.Pairwise.cons ?_ (List.Pairwise.cons ht hts)
      intro b hb
      rcases List.mem_cons.mp hb with rfl | hb
      · exact hle
      · have := ht b hb
        omega
    · refine List.Pairwise.cons ?_ (ih hts)
      intro b hb
      rcases (mem_insertDesc s b ts).mp hb with rfl | hb
      · omega
      · exact ht b hb

/-- Filtering on an exact signal value commutes with `insertDesc`: the walked-over
prefix holds only strictly larger signals, so an inserted sample with the filtered
signal lands at the front of the filtered list. -/
theorem filter_insertDesc (s : Sample) (k : ℤ) (l : List Sample) :
    (insertDesc s l).filter (fun p => decide (p.signal_dbm = k)) =
      if s.signal_dbm = k then s :: l.filter (fun p => decide (p.signal_dbm = k))
      else l.filter (fun p => decide (p.signal_dbm = k)) := by
  induction l with
  | nil =>
    simp only [insertDesc, List.filter_cons, List.filter_nil]
    split_ifs <;> simp_all
  | cons t ts ih =>
    by_cases hle : t.signal_dbm ≤ s.signal_dbm
    · rw [show insertDesc s (t :: ts) = s :: t :: ts from by simp [insertDesc, hle]]
      rw [List.filter_cons]
      split_ifs <;> simp_all
    · rw [show insertDesc s (t :: ts) = t :: insertDesc s ts from by simp [insertDesc, hle]]
      rw [List.filter_cons, ih]
      by_cases hsk : s.signal_dbm = k
      · have htk : ¬ t.signal_dbm = k := by omega
        simp [hsk, htk, List.filter_cons]
      · simp [hsk, List.filter_cons]

/-- `sortDesc` permutes its input as far as membership is concerned. -/
theorem mem_sortDesc (x : Sample) (l : List Sample) : x ∈ sortDesc l ↔ x ∈ l := by
  induction l with
  | nil => simp [sortDesc]
  | cons s ss ih => simp [sortDesc, mem_insertDesc, ih]

/-- `sortDesc` sorts descending by `signal_dbm`. -/
theorem pairwise_sortDesc (l : List Sample) :
    List.Pairwise (fun a b => b.signal_dbm ≤ a.signal_dbm) (sortDesc l) := by
  induction l with
  | nil => exact List.Pairwise.nil
  | cons s ss ih => exact pairwise_insertDesc s _ ih

/-- Stability of `sortDesc`: the samples with any fixed signal value appear in the
sorted output in exactly their input order. -/
theorem filter_sortDesc (k : ℤ) (l : List Sample) :
    (sortDesc l).filter (fun p => decide (p.signal_dbm = k)) =
      l.filter (fun p => decide (p.signal_dbm = k)) := by
  induction l with
  | nil => rfl
  | cons s ss ih =>
    simp only [sortDesc]
    rw [filter_insertDesc, ih, List.filter_cons]
    split_ifs <;> simp_all

/-- Filtering a `take`-prefix yields a `take`-prefix of the filtered list. -/
theorem filter_take_prefix (p : Sample → Bool) (n : ℕ) (l : List Sample) :
    ∃ m : ℕ, (l.take n).filter p = (l.filter p).take m := by
  refine ⟨((l.take n).filter p).length, ?_⟩
  have h : l.filter p = (l.take n).filter p ++ (l.drop n).filter p := by
    rw [← List.filter_append, List.take_append_drop]
  rw [h, List.take_left]

/-- C5: the best-coverage report (`wifi_visualizer.py:218-225`) has at most 3
entries, every entry is a good zone drawn from the input, the entries are sorted
descending by `signal_dbm`, and — sorting being stable — the entries with any fixed
signal value are an initial segment of the good zones with that value in input
order. -/
theorem best_coverage_spec :
    ∀ (data : List Sample) (t : ℤ),
      (analyze_dead_zones data t).best.length ≤ 3 ∧
      (∀ s : Sample, s ∈ (analyze_dead_zones data t).best →
        s ∈ data ∧ -60 ≤ s.signal_dbm) ∧
      List.Pairwise (fun a b => b.signal_dbm ≤ a.signal_dbm)
        (analyze_dead_zones data t).best ∧
      ∀ k : ℤ, ∃ m : ℕ,
        (analyze_dead_zones data t).best.filter (fun p => decide (p.signal_dbm = k)) =
          ((analyze_dead_zones data t).good.filter
            (fun p => decide (p.signal_dbm = k))).take m := by
  intro data t
  refine ⟨?_, ?_, ?_, ?_⟩
  · simp only [analyze_dead_zones, List.length_take]
    omega
  · intro s hs
    simp only [analyze_dead_zones] at hs
    have h1 := List.mem_of_mem_take hs
    rw [mem_sortDesc, List.mem_filter] at h1
    exact ⟨h1.1, by simpa using h1.2⟩
  · simp only [analyze_dead_zones]
    exact (pairwise_sortDesc _).sublist (List.take_sublist 3 _)
  · intro k
    simp only [analyze_dead_zones]
    obtain ⟨m, hm⟩ :=
      filter_take_prefix (fun p => decide (p.signal_dbm = k)) 3
        (sortDesc (data.filter (fun p => decide (-60 ≤ p.signal_dbm))))
    exact ⟨m, by rw [hm, filter_sortDesc]⟩

/-- Witness for C5 at the spec's three-sample scenario with threshold -75: the top
entry (signal -40) is a good zone from the input, and at signal value -55 the
report is an initial segment of the good zones in input order. -/
theorem best_coverage_spec_witness :
    ((⟨"", -40, 0, 0, none⟩ : Sample) ∈
        ([⟨"", -40, 0, 0, none⟩, ⟨"", -70, 5, 0, none⟩, ⟨"", -55, 0, 5, none⟩] :
          List Sample) ∧
      -60 ≤ (⟨"", -40, 0, 0, none⟩ : Sample).signal_dbm) ∧
    ∃ m : ℕ,
      (analyze_dead_zones
          [⟨"", -40, 0, 0, none⟩, ⟨"", -70, 5, 0, none⟩, ⟨"", -55, 0, 5, none⟩]
          (-75)).best.filter (fun p => decide (p.signal_dbm = -55)) =
        ((analyze_dead_zones
            [⟨"", -40, 0, 0, none⟩, ⟨"", -70, 5, 0, none⟩, ⟨"", -55, 0, 5, none⟩]
            (-75)).good.filter (fun p => decide (p.signal_dbm = -55))).take m :=
  ⟨(best_coverage_spec
      [⟨"", -40, 0, 0, none⟩, ⟨"", -70, 5, 0, none⟩, ⟨"", -55, 0, 5, none⟩]
      (-75)).2.1 ⟨"", -40, 0, 0, none⟩ (by decide),
   (best_coverage_spec
      [⟨"", -40, 0, 0, none⟩, ⟨"", -70, 5, 0, none⟩, ⟨"", -55, 0, 5, none⟩]
      (-75)).2.2.2 (-55)⟩

/-- Orientation form: twice the signed area of the triangle `a b c`. -/
def cross (a b c : ℚ × ℚ) : ℚ :=
  (b.1 - a.1) * (c.2 - a.2) - (b.2 - a.2) * (c.1 - a.1)

/-- `p` lies on the closed segment from `a` to `b`: collinear with the segment and
inside its bounding box. -/
def onSegment (a b p : ℚ × ℚ) : Bool :=
  decide (cross a b p = 0 ∧ min a.1 b.1 ≤ p.1 ∧ p.1 ≤ max a.1 b.1 ∧
    min a.2 b.2 ≤ p.2 ∧ p.2 ≤ max a.2 b.2)

/-- `p` lies in the closed nondegenerate triangle `a b c`: the three orientation
forms against the sides share a sign. -/
def inTriangle (a b c p : ℚ × ℚ) : Bool :=
  decide (cross a b c ≠ 0 ∧
    ((0 ≤ cross a b p ∧ 0 ≤ cross b c p ∧ 0 ≤ cross c a p) ∨
     (cross a b p ≤ 0 ∧ cross b c p ≤ 0 ∧ cross c a p ≤ 0)))

/-- Membership in the convex hull of a finite plane point set: by Carathéodory,
`p` is in the hull iff it lies on a segment between two of the points or in a
nondegenerate triangle spanned by three of them. -/
def inHull (pts : List (ℚ × ℚ)) (p : ℚ × ℚ) : Bool :=
  pts.any (fun a => pts.any (fun b => onSegment a b p)) ||
  pts.any (fun a => pts.any (fun b => pts.any (fun c => inTriangle a b c p)))

/-- The sample coordinates handed to the interpolation engine
(`x_coords`/`y_coords`, `wifi_visualizer.py:40-41`). -/
def sampleCoords (data : List Sample) : List (ℚ × ℚ) :=
  data.map (fun s => (s.x, s.y))

/-- Degenerate interpolation input (spec §4.3): fewer than 3 non-collinear points,
i.e. every triple of sample coordinates is collinear. -/
def degenerateCoords (pts : List (ℚ × ℚ)) : Bool :=
  pts.all (fun a => pts.all (fun b => pts.all (fun c => decide (cross a b c = 0))))

/-- Python `min(x_coords)` over a non-empty dataset (`wifi_visualizer.py:48`). -/
def minX (data : List Sample) : ℚ :=
  match data with
  | [] => 0
  | s :: ss => ss.foldl (fun m q => min m q.x) s.x

/-- Python `max(x_coords)` over a non-empty dataset (`wifi_visualizer.py:48`). -/
def maxX (data : List Sample) : ℚ :=
  match data with
  | [] => 0
  | s :: ss => ss.foldl (fun m q => max m q.x) s.x

/-- Python `min(y_coords)` over a non-empty dataset (`wifi_visualizer.py:49`). -/
def minY (data : List Sample) : ℚ :=
  match data with
  | [] => 0
  | s :: ss => ss.foldl (fun m q => min m q.y) s.y

/-- Python `max(y_coords)` over a non-empty dataset (`wifi_visualizer.py:49`). -/
def maxY (data : List Sample) : ℚ :=
  match data with
  | [] => 0
  | s :: ss => ss.foldl (fun m q => max m q.y) s.y

/-- Python `min(signals)`, the interpolation fallback value
(`fill_value=min(signals)`, `wifi_visualizer.py:62`). -/
def minSignal (data : List Sample) : ℤ :=
  match data with
  | [] => 0
  | s :: ss => ss.foldl (fun m q => min m q.signal_dbm) s.signal_dbm

/-- `numpy.linspace(a, b, n)[i]`: n evenly spaced values from a to b inclusive
(`wifi_visualizer.py:52-53`). -/
def linspace (a b : ℚ) (n : ℕ) (i : ℕ) : ℚ :=
  if n ≤ 1 then a else a + (b - a) * (i : ℚ) / ((n : ℚ) - 1)

/-- Squared euclidean distance in the sample coordinate plane. -/
def dist2 (p q : ℚ × ℚ) : ℚ := (p.1 - q.1) ^ 2 + (p.2 - q.2) ^ 2

/-- Inverse-distance-weighted average of the sample signals at `p`, the model's
smooth scattered-data estimate for points strictly between samples. -/
def idw (data : List Sample) (p : ℚ × ℚ) : ℚ :=
  (data.foldl (fun acc s => acc + (s.signal_dbm : ℚ) / dist2 p (s.x, s.y)) 0) /
    (data.foldl (fun acc s => acc + 1 / dist2 p (s.x, s.y)) 0)

/-- Modelled from the spec: the value of the Interpolation Engine's interpolant at
a point (§4.3). The repository delegates this numeric computation to
`scipy.interpolate.griddata(..., method='cubic', fill_value=min(signals))`
(`wifi_visualizer.py:57-63`), whose cubic Clough-Tocher scheme is not part of the
source; following the spec's design-level contract the model reproduces the sample
value exactly at a sample coordinate, takes a smooth scattered-data estimate
(here: inverse-distance weighting) elsewhere inside the convex hull of the sample
coordinates, and assigns the deterministic fallback `min(signals)` outside the
hull. -/
def gridValue (data : List Sample) (p : ℚ × ℚ) : ℚ :=
  match data.find? (fun s => decide (s.x = p.1 ∧ s.y = p.2)) with
  | some s => (s.signal_dbm : ℚ)
  | none =>
    if inHull (sampleCoords data) p then idw data p else ((minSignal data : ℤ) : ℚ)

/-- The R×R heat-map lattice over the samples' bounding box expanded by margin 1
on each side (`wifi_visualizer.py:48-54`): row i, column j holds the value at
`x = linspace(min x - 1, max x + 1, R)[j]`, `y = linspace(min y - 1, max y + 1,
R)[i]`, mirroring `numpy.meshgrid` orientation. -/
def heatGrid (data : List Sample) (R : ℕ) : List (List ℚ) :=
  (List.range R).map (fun i => (List.range R).map (fun j =>
    gridValue data (linspace (minX data - 1) (maxX data + 1) R j,
                    linspace (minY data - 1) (maxY data + 1) R i)))

/-- Failure taxonomy of the interpolation engine (spec §4.3 and §7). -/
inductive InterpError where
  | insufficientData
  deriving DecidableEq, Repr

/-- Modelled from the spec: the Interpolation Engine entry point (§4.3). The
source (`create_heatmap`, `wifi_visualizer.py:56-63`) falls through to library
defaults on degenerate input; the spec pins the behavior down: with fewer than 3
non-collinear sample points the engine must fail with `InsufficientDataError`
rather than silently produce undefined values. -/
def interpolateGrid (data : List Sample) (R : ℕ) :
    Except InterpError (List (List ℚ)) :=
  if degenerateCoords (sampleCoords data) then .error .insufficientData
  else .ok (heatGrid data R)

/-- C3: on every degenerate input — fewer than 3 non-collinear sample points, the
single-sample case included — the interpolation engine fails with the
insufficient-data error instead of silently producing undefined values. -/
theorem degenerate_interpolation_fails :
    ∀ (data : List Sample) (R : ℕ),
      degenerateCoords (sampleCoords data) = true →
      interpolateGrid data R = Except.error InterpError.insufficientData := by
  intro data R h
  simp [interpolateGrid, h]

/-- Witness for C3 at the spec's scenario: the single sample `(0, 0, -90)`. -/
theorem degenerate_interpolation_fails_witness :
    interpolateGrid [⟨"", -90, 0, 0, none⟩] 100 =
      Except.error InterpError.insufficientData :=
  degenerate_interpolation_fails [⟨"", -90, 0, 0, none⟩] 100
    (by simp [degenerateCoords, sampleCoords, cross])

/-- Every listed point is in the convex hull of the list (the degenerate segment
from the point to itself). -/
theorem inHull_of_mem (pts : List (ℚ × ℚ)) (p : ℚ × ℚ) (hp : p ∈ pts) :
    inHull pts p = true := by
  simp only [inHull, Bool.or_eq_true, List.any_eq_true]
  refine Or.inl ⟨p, hp, p, hp, ?_⟩
  simp [onSegment, cross]

/-- At a point outside the hull no sample coordinate matches, so the
interpolant's sample-lookup comes up empty. -/
theorem find?_eq_none_of_not_inHull (data : List Sample) (p : ℚ × ℚ)
    (h : inHull (sampleCoords data) p = false) :
    data.find? (fun s => decide (s.x = p.1 ∧ s.y = p.2)) = none := by
  rw [List.find?_eq_none]
  intro s hs hpred
  simp only [decide_eq_true_eq] at hpred
  have hmem : (s.x, s.y) ∈ sampleCoords data := List.mem_map_of_mem _ hs
  have hp : p = (s.x, s.y) := by
    obtain ⟨p1, p2⟩ := p
    simp only at hpred
    simp [hpred.1, hpred.2]
  rw [hp] at h
  rw [inHull_of_mem (sampleCoords data) (s.x, s.y) hmem] at h
  simp at h

/-- C4: for a non-empty sample list the heat-map grid is an R×R lattice whose
(i, j) entry is the interpolant's value at the point with
`x = linspace(min x - 1, max x + 1, R)[j]` and
`y = linspace(min y - 1, max y + 1, R)[i]` — the bounding box expanded by margin 1
on each side — and at every point outside the convex hull of the sample
coordinates the interpolant yields the fallback value `min(signals)`. -/
theorem grid_lattice_and_fallback :
    ∀ (data : List Sample) (R : ℕ), data ≠ [] →
      (heatGrid data R).length = R ∧
      (∀ row ∈ heatGrid data R, row.length = R) ∧
      (∀ (i j : ℕ) (hi : i < (heatGrid data R).length)
        (hj : j < ((heatGrid data R).get ⟨i, hi⟩).length),
        ((heatGrid data R).get ⟨i, hi⟩).get ⟨j, hj⟩ =
          gridValue data (linspace (minX data - 1) (maxX data + 1) R j,
                          linspace (minY data - 1) (maxY data + 1) R i)) ∧
      (∀ p : ℚ × ℚ, inHull (sampleCoords data) p = false →
        gridValue data p = ((minSignal data : ℤ) : ℚ)) := by
  intro data R _
  refine ⟨by simp [heatGrid], ?_, ?_, ?_⟩
  · intro row hrow
    simp only [heatGrid, List.mem_map] at hrow
    obtain ⟨i, _, rfl⟩ := hrow
    simp
  · intro i j hi hj
    simp [heatGrid, List.get_eq_getElem, List.getElem_map, List.getElem_range]
  · intro p h
    rw [gridValue, find?_eq_none_of_not_inHull data p h, h]
    simp

/-- Witness for C4 at three non-collinear samples with R = 2 and the far-away
query point (100, 100), which is outside the samples' convex hull. -/
theorem grid_lattice_and_fallback_witness :
    (heatGrid [⟨"", -40, 0, 0, none⟩, ⟨"", -70, 5, 0, none⟩, ⟨"", -55, 0, 5, none⟩]
        2).length = 2 ∧
    gridValue [⟨"", -40, 0, 0, none⟩, ⟨"", -70, 5, 0, none⟩, ⟨"", -55, 0, 5, none⟩]
        (100, 100) =
      ((minSignal [⟨"", -40, 0, 0, none⟩, ⟨"", -70, 5, 0, none⟩,
          ⟨"", -55, 0, 5, none⟩] : ℤ) : ℚ) :=
  ⟨(grid_lattice_and_fallback
      [⟨"", -40, 0, 0, none⟩, ⟨"", -70, 5, 0, none⟩, ⟨"", -55, 0, 5, none⟩] 2
      (List.cons_ne_nil _ _)).1,
   (grid_lattice_and_fallback
      [⟨"", -40, 0, 0, none⟩, ⟨"", -70, 5, 0, none⟩, ⟨"", -55, 0, 5, none⟩] 2
      (List.cons_ne_nil _ _)).2.2.2 (100, 100)
      (by norm_num [inHull, onSegment, inTriangle, cross, sampleCoords, min_def,
        max_def])⟩

/-- C7: for a non-degenerate sample set (at least 3 non-collinear points, no
repeated coordinates — the spec leaves duplicate coordinates undefined), the
interpolant's value at a sample's coordinates is exactly that sample's signal:
interpolation, not approximation. -/
theorem interpolation_reproduces_samples :
    ∀ (data : List Sample) (s : Sample),
      degenerateCoords (sampleCoords data) = false →
      (sampleCoords data).Nodup →
      s ∈ data →
      gridValue data (s.x, s.y) = (s.signal_dbm : ℚ) := by
  intro data s _ hnodup hmem
  have hsome : (data.find? (fun q =>
      decide (q.x = ((s.x, s.y) : ℚ × ℚ).1 ∧ q.y = ((s.x, s.y) : ℚ × ℚ).2))).isSome := by
    rw [List.find?_isSome]
    exact ⟨s, hmem, by simp⟩
  obtain ⟨s', hs'⟩ := Option.isSome_iff_exists.mp hsome
  have hmem' := List.mem_of_find?_eq_some hs'
  have hps' := List.find?_some hs'
  simp only [decide_eq_true_eq] at hps'
  have hss : s' = s :=
    List.inj_on_of_nodup_map hnodup hmem' hmem (by simp [hps'.1, hps'.2])
  unfold gridValue
  rw [hs', hss]

/-- Witness for C7: the sample at (5, 0) with signal -70 among three non-collinear
samples is reproduced exactly by the interpolant. -/
theorem interpolation_reproduces_samples_witness :
    gridValue [⟨"", -40, 0, 0, none⟩, ⟨"", -70, 5, 0, none⟩, ⟨"", -55, 0, 5, none⟩]
        ((⟨"", -70, 5, 0, none⟩ : Sample).x, (⟨"", -70, 5, 0, none⟩ : Sample).y) =
      ((⟨"", -70, 5, 0, none⟩ : Sample).signal_dbm : ℚ) :=
  interpolation_reproduces_samples
    [⟨"", -40, 0, 0, none⟩, ⟨"", -70, 5, 0, none⟩, ⟨"", -55, 0, 5, none⟩]
    ⟨"", -70, 5, 0, none⟩
    (by norm_num [degenerateCoords, sampleCoords, cross])
    (by norm_num [sampleCoords, Prod.ext_iff])
    (by decide)

/-- The two failure modes of the visualization phase's load step. The spec (§4.1)
names them `NotFoundError` and `EmptyDatasetError`; `load_data`
(`wifi_visualizer.py:14-28`) realises each as its own message-and-return-None
branch. -/
inductive LoadError where
  | notFound
  | emptyDataset
  deriving DecidableEq, Repr

/-- `load_data` (`wifi_visualizer.py:14-28`) over the abstract dataset-file state
(`none` = file absent, `some d` = file present holding samples `d`): absent file →
not-found failure (lines 16-19); present but zero data points → empty-dataset
failure (lines 24-26); otherwise the data. -/
def load_data (file : Option (List Sample)) : Except LoadError (List Sample) :=
  match file with
  | none => .error .notFound
  | some d => if d.length = 0 then .error .emptyDataset else .ok d

/-- `main` of the visualization phase (`wifi_visualizer.py:229-257`) as a function
of the dataset-file state: the analysis and heat-map grid it produces, or `none`
when `load_data` failed and `main` returned early (lines 242-244) without creating
any output image. -/
def visualizerMain (file : Option (List Sample)) (threshold : ℤ) :
    Option (Analysis × List (List ℚ)) :=
  match load_data file with
  | .error _ => none
  | .ok d => some (analyze_dead_zones d threshold, heatGrid d 100)

/-- C9: loading fails with the not-found error when the dataset file is absent and
with the empty-dataset error when it holds zero samples; in either case the
visualization run ends early, producing no analysis and no output image; on a
non-empty file it returns the data. -/
theorem load_failure_modes :
    load_data none = Except.error LoadError.notFound ∧
    (∀ d : List Sample, d.length = 0 →
      load_data (some d) = Except.error LoadError.emptyDataset) ∧
    (∀ (file : Option (List Sample)) (t : ℤ) (e : LoadError),
      load_data file = Except.error e → visualizerMain file t = none) ∧
    (∀ d : List Sample, 0 < d.length → load_data (some d) = Except.ok d) := by
  refine ⟨rfl, ?_, ?_, ?_⟩
  · intro d hd
    simp [load_data, hd]
  · intro file t e he
    simp [visualizerMain, he]
  · intro d hd
    have hne : d.length ≠ 0 := by omega
    simp [load_data, hne]

/-- Witness for C9: the empty file fails with the empty-dataset error, and with the
file absent the run produces no output. -/
theorem load_failure_modes_witness :
    load_data (some ([] : List Sample)) = Except.error LoadError.emptyDataset ∧
    visualizerMain none (-75) = none ∧
    load_data (some [⟨"", -90, 0, 0, none⟩]) = Except.ok [⟨"", -90, 0, 0, none⟩] :=
  ⟨load_failure_modes.2.1 [] rfl,
   load_failure_modes.2.2.1 none (-75) LoadError.notFound rfl,
   load_failure_modes.2.2.2 [⟨"", -90, 0, 0, none⟩] (by decide)⟩
